import Mathlib

/-
Verification of the vist_toml manifest-query library.

The definitions below are a shallow embedding of `src/vist_toml/src/lib.rs`:
the document tree (`toml_document`'s `EntryRef`) becomes the inductive
`Entry`; tables become association lists looked up front-to-back; the
mutating accumulator loops of the extractors become structurally recursive
functions returning the pairs of lists they would have pushed, in push
order; Rust's `try!` early return becomes nested matches on `Except`;
pointer/length FFI slices become an `Option (List α)` (a null pointer is
`none`) paired with a wrapped signed 32-bit length; the `unreachable!()`
panic inside `get_string_array` is modelled by an `Option` result where
`none` marks the panic.
-/

set_option maxHeartbeats 1000000

namespace VistToml

/-- A node of the parsed document tree (`toml_document`'s `EntryRef`): the
seven node kinds of lib.rs lines 20-30.  The float payload is never read by
any code under verification, so it carries none here; a datetime's payload
is its text. -/
inductive Entry where
  | str (value : String)
  | int (value : Int)
  | float
  | bool (value : Bool)
  | datetime (value : String)
  | arr (items : List Entry)
  | table (pairs : List (String × Entry))

/-- Key lookup in a table node: the first pair whose key matches
(`TableEntry::get` / `Document::get`). -/
def tableGet : List (String × Entry) → String → Option Entry
  | [], _ => none
  | (k, v) :: rest, key => if k = key then some v else tableGet rest key

/-- A document is its root table (`Document`). -/
abbrev Document := List (String × Entry)

/-- `entry_kind` (lib.rs 20-30): the display name of a node's kind. -/
def entry_kind : Entry → String
  | .str _ => "string"
  | .int _ => "integer"
  | .float => "float"
  | .bool _ => "boolean"
  | .datetime _ => "datetime"
  | .arr _ => "array"
  | .table _ => "table"

/-- `array_kind` (lib.rs 32-46): `none` for an empty array, otherwise the
kind of the first element, rendered as "array of <kind>s". -/
def array_kind (items : List Entry) : Option String :=
  match items with
  | [] => none
  | e :: _ =>
    match e with
    | .str _ => some "array of strings"
    | .int _ => some "array of integers"
    | .float => some "array of floats"
    | .bool _ => some "array of booleans"
    | .datetime _ => some "array of datetimes"
    | .arr _ => some "array of arrays"
    | .table _ => some "array of tables"

/-- `QueryError` (lib.rs 331-334). -/
inductive QueryError where
  | Vacant (depth : Nat)
  | Conflict (depth : Nat) (kind : String)
deriving DecidableEq

/-- `PathError` (lib.rs 372-376). -/
structure PathError where
  path : String
  expected : String
  got : String
deriving DecidableEq

/-- `lookup_inner` (lib.rs 305-323): descend through tables along the
remaining keys, `depth` being the counter the source threads through. -/
def lookup_inner : Entry → List String → Nat → Except QueryError Entry
  | entry, [], _ => .ok entry
  | entry, key :: rest, depth =>
    match entry with
    | .table t =>
      match tableGet t key with
      | none => .error (.Vacant depth)
      | some e => lookup_inner e rest (depth + 1)
    | e => .error (.Conflict depth (entry_kind e))

/-- `Manifest::lookup` (lib.rs 304-327).  The source indexes `path[0]`
unconditionally, so the non-empty path is passed here as head and tail. -/
def Manifest.lookup (doc : Document) (key : String) (rest : List String) :
    Except QueryError Entry :=
  match tableGet doc key with
  | none => .error (.Vacant 0)
  | some entry => lookup_inner entry rest 0

/-- The inner `string_value` of `get_string_array` (lib.rs 80-85): `none`
models the `unreachable!()` panic taken on any non-string node. -/
def string_value : Entry → Option String
  | .str value => some value
  | _ => none

/-- The `array.iter().map(string_value).collect()` of `get_string_array`
(lib.rs 92): `none` as soon as one element would panic. -/
def map_string_values : List Entry → Option (List String)
  | [] => some []
  | e :: rest =>
    match string_value e with
    | none => none
    | some s =>
      match map_string_values rest with
      | none => none
      | some ss => some (s :: ss)

/-- `Manifest::get_string_array` (lib.rs 77-99).  The outer `Option` is
`none` exactly when the source would panic in `string_value`. -/
def get_string_array (doc : Document) (key : String) (rest : List String) :
    Option (Except QueryError (List String)) :=
  match Manifest.lookup doc key rest with
  | .ok (.arr array) =>
    match array with
    | [] => some (.ok [])
    | first :: _ =>
      match first with
      | .str _ => (map_string_values array).map Except.ok
      | e => some (.error (.Conflict (rest.length + 1) (entry_kind e)))
  | .ok entry => some (.error (.Conflict (rest.length + 1) (entry_kind entry)))
  | .error err => some (.error err)

/-- `Dependency` (lib.rs 336-342). -/
structure Dependency where
  name : String
  version : Option String
  git : Option String
  path : Option String
  target : Option String
deriving DecidableEq

/-- `Dependency::simple` (lib.rs 345-353). -/
def Dependency.simple (name : String) (target : Option String) (version : String) :
    Dependency :=
  { name := name, version := some version, git := none, path := none, target := target }

/-- The inner `get_string` of `Dependency::complex` (lib.rs 356-361): an
optional string field, any non-string node read as absent. -/
def dep_get_string (tabl : List (String × Entry)) (key : String) : Option String :=
  match tableGet tabl key with
  | some (.str s) => some s
  | _ => none

/-- `Dependency::complex` (lib.rs 355-369). -/
def Dependency.complex (name : String) (target : Option String)
    (table : List (String × Entry)) : Dependency :=
  { name := name, version := dep_get_string table "version",
    git := dep_get_string table "git", path := dep_get_string table "path",
    target := target }

/-- The error path the dependency loop formats (lib.rs 117-122). -/
def dep_err_path (target : Option String) (name : String) : String :=
  match target with
  | some t => "target." ++ t ++ ".dependencies." ++ name
  | none => "dependencies." ++ name

/-- The body of the per-pair loop of `get_inner` (lib.rs 108-131): what one
key/value pair of a dependencies table contributes. -/
def classify_dep (target : Option String) (name : String) :
    Entry → List Dependency × List PathError
  | .str version => ([Dependency.simple name target version], [])
  | .table t => ([Dependency.complex name target t], [])
  | e => ([], [{ path := dep_err_path target name, expected := "string",
                 got := entry_kind e }])

/-- The iteration of `get_inner` over a dependencies table (lib.rs
108-131), producing the pushed dependencies and errors in push order. -/
def get_inner_table (target : Option String) :
    List (String × Entry) → List Dependency × List PathError
  | [] => ([], [])
  | (name, e) :: rest =>
    let here := classify_dep target name e
    let r := get_inner_table target rest
    (here.1 ++ r.1, here.2 ++ r.2)

/-- `get_inner` (lib.rs 102-148). -/
def get_inner (target : Option String) : Entry → List Dependency × List PathError
  | .table t => get_inner_table target t
  | e =>
    ([], [{ path := match target with
              | some t => "target." ++ t ++ ".dependencies"
              | none => "dependencies",
            expected := "table", got := entry_kind e }])

/-- The per-target loop of `get_dependencies` (lib.rs 154-162). -/
def target_deps : List (String × Entry) → List Dependency × List PathError
  | [] => ([], [])
  | (tname, te) :: rest =>
    let here :=
      match te with
      | .table tt =>
        match tableGet tt "dependencies" with
        | some e => get_inner (some tname) e
        | none => ([], [])
      | _ => ([], [])
    let r := target_deps rest
    (here.1 ++ r.1, here.2 ++ r.2)

/-- The full accumulation pass of `get_dependencies` (lib.rs 149-162):
the `deps` and `errors` vectors at the final check. -/
def dep_scan (doc : Document) : List Dependency × List PathError :=
  let root :=
    match tableGet doc "dependencies" with
    | some e => get_inner none e
    | none => ([], [])
  let tgts :=
    match tableGet doc "target" with
    | some (.table targets) => target_deps targets
    | _ => ([], [])
  (root.1 ++ tgts.1, root.2 ++ tgts.2)

/-- `Manifest::get_dependencies` (lib.rs 101-168). -/
def get_dependencies (doc : Document) : Except (List PathError) (List Dependency) :=
  let s := dep_scan doc
  if s.2.length > 0 then .error s.2 else .ok s.1

/-- `OutputTarget` (lib.rs 378-388). -/
structure OutputTarget where
  kind : String
  name : Option String
  path : Option String
  test : Bool
  doctest : Bool
  bench : Bool
  doc : Bool
  plugin : Bool
  harness : Bool
deriving DecidableEq

/-- `OutputTarget::default` (lib.rs 391-403). -/
def OutputTarget.default : OutputTarget :=
  { kind := "", name := none, path := none,
    test := true, doctest := false, bench := true,
    doc := false, plugin := false, harness := true }

/-- `OutputTarget::bin` (lib.rs 405-411). -/
def OutputTarget.bin : OutputTarget :=
  { OutputTarget.default with kind := "bin", doc := true }

/-- `OutputTarget::lib` (lib.rs 413-420). -/
def OutputTarget.lib : OutputTarget :=
  { OutputTarget.default with kind := "lib", doctest := true, doc := true }

/-- `OutputTarget::bench` (lib.rs 422-428); named `bench_t` because the
field projection `OutputTarget.bench` takes the source name. -/
def OutputTarget.bench_t : OutputTarget :=
  { OutputTarget.default with kind := "bench", test := false }

/-- `OutputTarget::test` (lib.rs 430-436). -/
def OutputTarget.test_t : OutputTarget :=
  { OutputTarget.default with kind := "test", bench := false }

/-- `OutputTarget::example` (lib.rs 438-444); `example` is a Lean keyword. -/
def OutputTarget.example_t : OutputTarget :=
  { OutputTarget.default with kind := "example", bench := false }

/-- The inner `get_string` of `get_output_targets` (lib.rs 171-186). -/
def ot_get_string (entry : Option Entry) (path : String) :
    Except PathError (Option String) :=
  match entry with
  | some (.str s) => .ok (some s)
  | some e => .error { path := path, expected := "string", got := entry_kind e }
  | none => .ok none

/-- The inner `get_bool` of `get_output_targets` (lib.rs 187-202). -/
def ot_get_bool (entry : Option Entry) (path : String) :
    Except PathError (Option Bool) :=
  match entry with
  | some (.bool b) => .ok (some b)
  | some e => .error { path := path, expected := "boolean", got := entry_kind e }
  | none => .ok none

/-- `get_target` (lib.rs 203-228): the `try!` chain reading `name`, `path`
and the six boolean flags; a present flag overrides, an absent one keeps
the constructor's default. -/
def get_target (src : String) (entry : List (String × Entry)) (target : OutputTarget) :
    Except PathError OutputTarget :=
  match ot_get_string (tableGet entry "name") (src ++ ".name") with
  | .error e => .error e
  | .ok name =>
    match ot_get_string (tableGet entry "path") (src ++ ".path") with
    | .error e => .error e
    | .ok path =>
      match ot_get_bool (tableGet entry "test") (src ++ ".test") with
      | .error e => .error e
      | .ok vtest =>
        match ot_get_bool (tableGet entry "doctest") (src ++ ".doctest") with
        | .error e => .error e
        | .ok vdoctest =>
          match ot_get_bool (tableGet entry "bench") (src ++ ".bench") with
          | .error e => .error e
          | .ok vbench =>
            match ot_get_bool (tableGet entry "doc") (src ++ ".doc") with
            | .error e => .error e
            | .ok vdoc =>
              match ot_get_bool (tableGet entry "plugin") (src ++ ".plugin") with
              | .error e => .error e
              | .ok vplugin =>
                match ot_get_bool (tableGet entry "harness") (src ++ ".harness") with
                | .error e => .error e
                | .ok vharness =>
                  .ok { target with
                        name := name, path := path,
                        test := vtest.getD target.test,
                        doctest := vdoctest.getD target.doctest,
                        bench := vbench.getD target.bench,
                        doc := vdoc.getD target.doc,
                        plugin := vplugin.getD target.plugin,
                        harness := vharness.getD target.harness }

/-- `get_table` (lib.rs 229-251): the targets and errors it pushes. -/
def get_table (src : String) (entry : Option Entry) (target : OutputTarget) :
    List OutputTarget × List PathError :=
  match entry with
  | some (.table t) =>
    match get_target src t target with
    | .ok tgt => ([tgt], [])
    | .error e => ([], [e])
  | some e => ([], [{ path := src, expected := "table", got := entry_kind e }])
  | none => ([], [])

/-- The element loop of `get_array` (lib.rs 270-273). -/
def get_array_items (src : String) (ctor : OutputTarget) :
    List Entry → List OutputTarget × List PathError
  | [] => ([], [])
  | e :: rest =>
    let here := get_table src (some e) ctor
    let r := get_array_items src ctor rest
    (here.1 ++ r.1, here.2 ++ r.2)

/-- `get_array` (lib.rs 252-285).  The constructor argument is a value
because every closure the source passes is a constant function. -/
def get_array (src : String) (entry : Option Entry) (ctor : OutputTarget) :
    List OutputTarget × List PathError :=
  match entry with
  | some (.arr array) =>
    let kind := array_kind array
    if kind ≠ none ∧ kind ≠ some "array of tables" then
      ([], [{ path := src, expected := "array of tables", got := kind.getD "" }])
    else
      get_array_items src ctor array
  | some e => ([], [{ path := src, expected := "array", got := entry_kind e }])
  | none => ([], [])

/-- The full accumulation pass of `get_output_targets` (lib.rs 286-296):
the `targets` and `errors` vectors at the final check. -/
def target_scan (doc : Document) : List OutputTarget × List PathError :=
  let l := get_table "lib" (tableGet doc "lib") OutputTarget.lib
  let b := get_array "bin" (tableGet doc "bin") OutputTarget.bin
  let be := get_array "bench" (tableGet doc "bench") OutputTarget.bench_t
  let t := get_array "test" (tableGet doc "test") OutputTarget.test_t
  let ex := get_array "example" (tableGet doc "example") OutputTarget.example_t
  (l.1 ++ b.1 ++ be.1 ++ t.1 ++ ex.1, l.2 ++ b.2 ++ be.2 ++ t.2 ++ ex.2)

/-- `Manifest::get_output_targets` (lib.rs 170-302). -/
def get_output_targets (doc : Document) : Except (List PathError) (List OutputTarget) :=
  let s := target_scan doc
  if s.2.length > 0 then .error s.2 else .ok s.1

/-- Rust's `usize as i32` truncating cast (`len as INT32` in lib.rs). -/
def int32_of_nat (n : Nat) : Int := ((n : Int) + 2 ^ 31) % 2 ^ 32 - 2 ^ 31

/-- `RawSlice` (lib.rs 447-451): a null pointer is `arr = none`; the
pointed-to block is the list itself. -/
structure RawSlice (α : Type) where
  arr : Option (List α)
  len : Int
deriving DecidableEq

/-- `RawSlice::empty` (lib.rs 454-459). -/
def RawSlice.empty (α : Type) : RawSlice α := { arr := none, len := 0 }

/-- `RawSlice::from_vec` (lib.rs 461-469). -/
def RawSlice.from_vec {α : Type} (vec : List α) : RawSlice α :=
  { arr := some vec, len := int32_of_nat vec.length }

/-- `OwnedSlice` (lib.rs 472-476). -/
structure OwnedSlice (α : Type) where
  data : RawSlice α
deriving DecidableEq

/-- `OwnedSlice::empty` (lib.rs 489-495). -/
def OwnedSlice.empty (α : Type) : OwnedSlice α := { data := RawSlice.empty α }

/-- `OwnedSlice::from_str` (lib.rs 506-516); a native string is its byte
sequence, which `to_string().into_bytes()` copies verbatim. -/
def OwnedSlice.from_str (src : List UInt8) : OwnedSlice UInt8 :=
  { data := { arr := some src, len := int32_of_nat src.length } }

/-- `OwnedSlice::from_str_opt` (lib.rs 518-524). -/
def OwnedSlice.from_str_opt (src : Option (List UInt8)) : OwnedSlice UInt8 :=
  match src with
  | some s => OwnedSlice.from_str s
  | none => OwnedSlice.empty UInt8

/-- `Drop for OwnedSlice` (lib.rs 478-488) as a state transformer: the
resulting slice state, paired with whether a deallocation was performed. -/
def drop_owned {α : Type} (s : OwnedSlice α) : OwnedSlice α × Bool :=
  match s.data.arr with
  | none => (s, false)
  | some _ => ({ data := { arr := none, len := 0 } }, true)

/-- Reading a slice back (`BorrowedSlice::as_str`, lib.rs 532-539): the
first `len` elements behind the pointer; nothing behind a null pointer. -/
def read_back {α : Type} (s : OwnedSlice α) : List α :=
  match s.data.arr with
  | none => []
  | some l => l.take s.data.len.toNat

/-- Resolution of a key sequence by descending through tables only —
the spec's notion of a resolvable (prefix of a) dotted path (spec §4.1). -/
def resolveSeg : Entry → List String → Option Entry
  | e, [] => some e
  | .table t, key :: rest =>
    match tableGet t key with
    | none => none
    | some e => resolveSeg e rest
  | _, _ :: _ => none

/-- Resolution of a key sequence against a document's root table. -/
def resolve (doc : Document) (keys : List String) : Option Entry :=
  resolveSeg (.table doc) keys

/-- Whether a node is a table. -/
def isTab : Entry → Bool
  | .table _ => true
  | _ => false

/-- Whether a node is a string. -/
def isStr : Entry → Bool
  | .str _ => true
  | _ => false

/-- "The longest resolvable prefix of `p` in the tree has length `L`"
(spec §8): `p.take L` resolves and no longer prefix of `p` does. -/
def isLrpLen (doc : Document) (p : List String) (L : Nat) : Prop :=
  L ≤ p.length ∧ (resolve doc (p.take L)).isSome = true ∧
    ∀ j, j ≤ p.length → (resolve doc (p.take j)).isSome = true → j ≤ L

/-- The claim's Vacant clause, verbatim: `lookup` returns `Vacant d` iff
the longest resolvable prefix has length `d` and the table it reaches
lacks the next key. -/
def c1_vacant_claim (doc : Document) (key : String) (rest : List String) : Prop :=
  ∀ d, Manifest.lookup doc key rest = .error (.Vacant d) ↔
    (isLrpLen doc (key :: rest) d ∧
      ∃ t, resolve doc ((key :: rest).take d) = some (.table t) ∧
        tableGet t ((key :: rest).getD d "") = none)

/-- The claim's Conflict clause, verbatim: `lookup` returns
`Conflict d kind` iff a non-table node of that kind sits at the end of the
resolved `d`-segment prefix while keys remain. -/
def c1_conflict_claim (doc : Document) (key : String) (rest : List String) : Prop :=
  ∀ d kind, Manifest.lookup doc key rest = .error (.Conflict d kind) ↔
    ∃ e, resolve doc ((key :: rest).take d) = some e ∧ isTab e = false ∧
      d < (key :: rest).length ∧ kind = entry_kind e

/-- An optional entry acceptable to `get_bool`: absent or boolean. -/
def bool_ok (entry : Option Entry) : Bool :=
  match entry with
  | none => true
  | some (.bool _) => true
  | some _ => false

/-- An optional entry acceptable to the targets' `get_string`: absent or
string. -/
def str_ok (entry : Option Entry) : Bool :=
  match entry with
  | none => true
  | some (.str _) => true
  | some _ => false

/-- The first of the six boolean flags, in the source's checking order,
that is present in the entry table with a non-boolean kind. -/
def first_bad_bool (ts : List (String × Entry)) : Option String :=
  if bool_ok (tableGet ts "test") = false then some "test"
  else if bool_ok (tableGet ts "doctest") = false then some "doctest"
  else if bool_ok (tableGet ts "bench") = false then some "bench"
  else if bool_ok (tableGet ts "doc") = false then some "doc"
  else if bool_ok (tableGet ts "plugin") = false then some "plugin"
  else if bool_ok (tableGet ts "harness") = false then some "harness"
  else none

/-- The value `get_string` hands back on success. -/
def opt_str (entry : Option Entry) : Option String :=
  match entry with
  | some (.str s) => some s
  | _ => none

/-- The value `get_bool` hands back on success. -/
def opt_bool (entry : Option Entry) : Option Bool :=
  match entry with
  | some (.bool b) => some b
  | _ => none

/-! ### Helper lemmas -/

theorem resolveSeg_append (l₁ l₂ : List String) (e : Entry) :
    resolveSeg e (l₁ ++ l₂) =
      match resolveSeg e l₁ with
      | none => none
      | some e₂ => resolveSeg e₂ l₂ := by
  induction l₁ generalizing e with
  | nil => simp [resolveSeg]
  | cons k rest ih =>
    cases e
    case table t =>
      cases h : tableGet t k with
      | none => simp [resolveSeg, h]
      | some e2 => simp [resolveSeg, h, ih]
    all_goals simp [resolveSeg]

theorem resolveSeg_take_isSome (l : List String) (e : Entry) (j : Nat)
    (h : (resolveSeg e l).isSome = true) : (resolveSeg e (l.take j)).isSome = true := by
  induction l generalizing e j with
  | nil => simpa using h
  | cons k rest ih =>
    cases j with
    | zero => simp [resolveSeg]
    | succ j' =>
      cases e
      case table t =>
        cases htg : tableGet t k with
        | none => simp [resolveSeg, htg] at h
        | some e2 =>
          rw [List.take_succ_cons]
          simp only [resolveSeg, htg] at h ⊢
          exact ih e2 j' h
      all_goals simp [resolveSeg] at h

theorem take_succ_getD (p : List String) (L : Nat) (h : L < p.length) :
    p.take (L + 1) = p.take L ++ [p.getD L ""] := by
  induction p generalizing L with
  | nil => simp at h
  | cons x xs ih =>
    cases L with
    | zero => simp
    | succ L' =>
      have h' : L' < xs.length := by simpa using h
      simp [List.take_succ_cons, List.getD_cons_succ, ih L' h']

theorem resolveSeg_cons_of_nontable (e : Entry) (h : isTab e = false) (k : String)
    (l : List String) : resolveSeg e (k :: l) = none := by
  cases e <;> simp_all [isTab, resolveSeg]

theorem lookup_inner_vacant (path : List String) (e : Entry) (depth d : Nat) :
    lookup_inner e path depth = .error (.Vacant d) ↔
      ∃ j t, resolveSeg e (path.take j) = some (.table t) ∧ j < path.length ∧
        tableGet t (path.getD j "") = none ∧ d = depth + j := by
  induction path generalizing e depth with
  | nil =>
    constructor
    · intro h
      simp [lookup_inner] at h
    · rintro ⟨j, t, -, hj, -, -⟩
      simp at hj
  | cons k rest ih =>
    cases e
    case table t =>
      cases htg : tableGet t k with
      | none =>
        constructor
        · intro h
          simp [lookup_inner, htg] at h
          exact ⟨0, t, rfl, by simp, by simpa [List.getD_cons_zero] using htg, by omega⟩
        · rintro ⟨j, t', hres, hj, hmiss, hd⟩
          cases j with
          | zero =>
            simp [resolveSeg] at hres
            subst hres
            rw [List.getD_cons_zero] at hmiss
            have hd' : d = depth := by omega
            subst hd'
            simp [lookup_inner, htg]
          | succ j' =>
            rw [List.take_succ_cons] at hres
            simp [resolveSeg, htg] at hres
      | some e3 =>
        constructor
        · intro h
          have h' : lookup_inner e3 rest (depth + 1) = .error (.Vacant d) := by
            simpa [lookup_inner, htg] using h
          obtain ⟨j, t', hres, hj, hmiss, hd⟩ := (ih e3 (depth + 1)).mp h'
          refine ⟨j + 1, t', ?_, by simpa using Nat.succ_lt_succ hj,
                  by simpa [List.getD_cons_succ] using hmiss, by omega⟩
          rw [List.take_succ_cons]
          simpa [resolveSeg, htg] using hres
        · rintro ⟨j, t', hres, hj, hmiss, hd⟩
          cases j with
          | zero =>
            simp [resolveSeg] at hres
            subst hres
            rw [List.getD_cons_zero] at hmiss
            rw [htg] at hmiss
            exact Option.noConfusion hmiss
          | succ j' =>
            rw [List.take_succ_cons] at hres
            simp only [resolveSeg, htg] at hres
            have h' : lookup_inner e3 rest (depth + 1) = .error (.Vacant d) :=
              (ih e3 (depth + 1)).mpr ⟨j', t', hres, by simpa using hj,
                by simpa [List.getD_cons_succ] using hmiss, by omega⟩
            simpa [lookup_inner, htg] using h'
    all_goals
      (constructor
       · intro h
         simp [lookup_inner] at h
       · rintro ⟨j, t', hres, hj, hmiss, hd⟩
         cases j with
         | zero => simp [resolveSeg] at hres
         | succ j' =>
           rw [List.take_succ_cons] at hres
           simp [resolveSeg] at hres)

theorem lookup_inner_conflict (path : List String) (e : Entry) (depth d : Nat)
    (kind : String) :
    lookup_inner e path depth = .error (.Conflict d kind) ↔
      ∃ j e₂, resolveSeg e (path.take j) = some e₂ ∧ isTab e₂ = false ∧
        j < path.length ∧ kind = entry_kind e₂ ∧ d = depth + j := by
  induction path generalizing e depth with
  | nil =>
    constructor
    · intro h
      simp [lookup_inner] at h
    · rintro ⟨j, e₂, -, -, hj, -, -⟩
      simp at hj
  | cons k rest ih =>
    cases e
    case table t =>
      cases htg : tableGet t k with
      | none =>
        constructor
        · intro h
          simp [lookup_inner, htg] at h
        · rintro ⟨j, e₂, hres, htab, hj, hk, hd⟩
          cases j with
          | zero =>
            simp [resolveSeg] at hres
            subst hres
            simp [isTab] at htab
          | succ j' =>
            rw [List.take_succ_cons] at hres
            simp [resolveSeg, htg] at hres
      | some e3 =>
        constructor
        · intro h
          have h' : lookup_inner e3 rest (depth + 1) = .error (.Conflict d kind) := by
            simpa [lookup_inner, htg] using h
          obtain ⟨j, e₂, hres, htab, hj, hk, hd⟩ := (ih e3 (depth + 1)).mp h'
          refine ⟨j + 1, e₂, ?_, htab, by simpa using Nat.succ_lt_succ hj, hk, by omega⟩
          rw [List.take_succ_cons]
          simpa [resolveSeg, htg] using hres
        · rintro ⟨j, e₂, hres, htab, hj, hk, hd⟩
          cases j with
          | zero =>
            simp [resolveSeg] at hres
            subst hres
            simp [isTab] at htab
          | succ j' =>
            rw [List.take_succ_cons] at hres
            simp only [resolveSeg, htg] at hres
            have h' : lookup_inner e3 rest (depth + 1) = .error (.Conflict d kind) :=
              (ih e3 (depth + 1)).mpr ⟨j', e₂, hres, htab, by simpa using hj, hk, by omega⟩
            simpa [lookup_inner, htg] using h'
    all_goals
      (constructor
       · intro h
         simp [lookup_inner, entry_kind] at h
         obtain ⟨hd, hk⟩ := h
         exact ⟨0, _, rfl, rfl, by simp, hk.symm, by omega⟩
       · rintro ⟨j, e₂, hres, htab, hj, hk, hd⟩
         cases j with
         | zero =>
           simp [resolveSeg] at hres
           subst hres
           have hd' : d = depth := by omega
           subst hd'
           rw [hk]
           rfl
         | succ j' =>
           rw [List.take_succ_cons] at hres
           simp [resolveSeg] at hres)

theorem lookup_inner_ok (path : List String) (e : Entry) (depth : Nat) (e₂ : Entry) :
    lookup_inner e path depth = .ok e₂ ↔ resolveSeg e path = some e₂ := by
  induction path generalizing e depth with
  | nil => simp [lookup_inner, resolveSeg]
  | cons k rest ih =>
    cases e
    case table t =>
      cases htg : tableGet t k with
      | none => simp [lookup_inner, resolveSeg, htg]
      | some e3 => simp [lookup_inner, resolveSeg, htg, ih]
    all_goals simp [lookup_inner, resolveSeg]

theorem lookup_ok_iff (doc : Document) (key : String) (rest : List String) (e : Entry) :
    Manifest.lookup doc key rest = .ok e ↔ resolve doc (key :: rest) = some e := by
  unfold Manifest.lookup resolve
  cases htg : tableGet doc key with
  | none => simp [resolveSeg, htg]
  | some e2 => simp [resolveSeg, htg, lookup_inner_ok]

theorem lookup_vacant_iff (doc : Document) (key : String) (rest : List String) (d : Nat) :
    Manifest.lookup doc key rest = .error (.Vacant d) ↔
      ∃ L t, resolve doc ((key :: rest).take L) = some (.table t) ∧
        L < (key :: rest).length ∧
        tableGet t ((key :: rest).getD L "") = none ∧ d = L - 1 := by
  unfold Manifest.lookup
  cases htg : tableGet doc key with
  | none =>
    constructor
    · intro h
      simp at h
      exact ⟨0, doc, rfl, by simp, by simpa [List.getD_cons_zero] using htg, by omega⟩
    · rintro ⟨L, t, hres, hL, hmiss, hd⟩
      cases L with
      | zero =>
        have hd' : d = 0 := by omega
        subst hd'
        rfl
      | succ L' =>
        rw [List.take_succ_cons] at hres
        unfold resolve at hres
        simp [resolveSeg, htg] at hres
  | some e2 =>
    show lookup_inner e2 rest 0 = .error (.Vacant d) ↔ _
    rw [lookup_inner_vacant]
    constructor
    · rintro ⟨j, t, hres, hj, hmiss, hd⟩
      refine ⟨j + 1, t, ?_, by simpa using Nat.succ_lt_succ hj,
              by simpa [List.getD_cons_succ] using hmiss, by omega⟩
      rw [List.take_succ_cons]
      unfold resolve
      simpa [resolveSeg, htg] using hres
    · rintro ⟨L, t, hres, hL, hmiss, hd⟩
      cases L with
      | zero =>
        unfold resolve at hres
        simp [resolveSeg] at hres
        subst hres
        rw [List.getD_cons_zero] at hmiss
        rw [htg] at hmiss
        exact Option.noConfusion hmiss
      | succ L' =>
        rw [List.take_succ_cons] at hres
        unfold resolve at hres
        simp only [resolveSeg, htg] at hres
        exact ⟨L', t, hres, by simpa using hL,
               by simpa [List.getD_cons_succ] using hmiss, by omega⟩

theorem lookup_conflict_iff (doc : Document) (key : String) (rest : List String)
    (d : Nat) (kind : String) :
    Manifest.lookup doc key rest = .error (.Conflict d kind) ↔
      ∃ L e₂, resolve doc ((key :: rest).take L) = some e₂ ∧ isTab e₂ = false ∧
        L < (key :: rest).length ∧ kind = entry_kind e₂ ∧ d = L - 1 := by
  unfold Manifest.lookup
  cases htg : tableGet doc key with
  | none =>
    constructor
    · intro h
      simp at h
    · rintro ⟨L, e₂, hres, htab, hL, hk, hd⟩
      cases L with
      | zero =>
        unfold resolve at hres
        simp [resolveSeg] at hres
        subst hres
        simp [isTab] at htab
      | succ L' =>
        rw [List.take_succ_cons] at hres
        unfold resolve at hres
        simp [resolveSeg, htg] at hres
  | some e2 =>
    show lookup_inner e2 rest 0 = .error (.Conflict d kind) ↔ _
    rw [lookup_inner_conflict]
    constructor
    · rintro ⟨j, e₂, hres, htab, hj, hk, hd⟩
      refine ⟨j + 1, e₂, ?_, htab, by simpa using Nat.succ_lt_succ hj, hk, by omega⟩
      rw [List.take_succ_cons]
      unfold resolve
      simpa [resolveSeg, htg] using hres
    · rintro ⟨L, e₂, hres, htab, hL, hk, hd⟩
      cases L with
      | zero =>
        unfold resolve at hres
        simp [resolveSeg] at hres
        subst hres
        simp [isTab] at htab
      | succ L' =>
        rw [List.take_succ_cons] at hres
        unfold resolve at hres
        simp only [resolveSeg, htg] at hres
        exact ⟨L', e₂, hres, htab, by simpa using hL, hk, by omega⟩

theorem lrp_max_of_fail (doc : Document) (p : List String) (L : Nat)
    (hL : L ≤ p.length) (hsome : (resolve doc (p.take L)).isSome = true)
    (hfail : (resolve doc (p.take (L + 1))).isSome = false) : isLrpLen doc p L := by
  refine ⟨hL, hsome, ?_⟩
  intro j hj hsj
  by_contra hgt
  push_neg at hgt
  have h1 : (resolve doc ((p.take j).take (L + 1))).isSome = true :=
    resolveSeg_take_isSome (p.take j) (.table doc) (L + 1) hsj
  rw [List.take_take, Nat.min_eq_left (by omega)] at h1
  rw [hfail] at h1
  exact Bool.noConfusion h1

theorem fail_after_stuck_table (doc : Document) (p : List String) (L : Nat)
    (t : List (String × Entry)) (hres : resolve doc (p.take L) = some (.table t))
    (hL : L < p.length) (hmiss : tableGet t (p.getD L "") = none) :
    (resolve doc (p.take (L + 1))).isSome = false := by
  rw [take_succ_getD p L hL]
  unfold resolve at hres ⊢
  rw [resolveSeg_append, hres]
  simp only [resolveSeg]
  rw [hmiss]
  rfl

theorem fail_after_stuck_nontable (doc : Document) (p : List String) (L : Nat)
    (e₂ : Entry) (hres : resolve doc (p.take L) = some e₂) (htab : isTab e₂ = false)
    (hL : L < p.length) :
    (resolve doc (p.take (L + 1))).isSome = false := by
  rw [take_succ_getD p L hL]
  unfold resolve at hres ⊢
  rw [resolveSeg_append, hres]
  simp [resolveSeg_cons_of_nontable e₂ htab]

theorem int32_of_nat_eq_of_lt {n : Nat} (h : n < 2 ^ 31) : int32_of_nat n = (n : Int) := by
  unfold int32_of_nat
  have h1 : (0 : Int) ≤ (n : Int) + 2 ^ 31 := by positivity
  have h2 : (n : Int) + 2 ^ 31 < 2 ^ 32 := by
    have : (n : Int) < 2 ^ 31 := by exact_mod_cast h
    norm_num at this ⊢
    omega
  rw [Int.emod_eq_of_lt h1 h2]
  ring

theorem map_string_values_eq_none {l : List Entry} {e : Entry} (he : e ∈ l)
    (hs : isStr e = false) : map_string_values l = none := by
  induction l with
  | nil => cases he
  | cons a rest ih =>
    rcases List.mem_cons.mp he with rfl | hmem
    · cases e <;> simp_all [isStr, map_string_values, string_value]
    · cases hsv : string_value a with
      | none => simp [map_string_values, hsv]
      | some s => simp [map_string_values, hsv, ih hmem]

/-! ### C9: drop on an owned slice is a tolerant, idempotent release -/

/-- C9: `OwnedSlice`'s drop is a no-op on an empty (null) buffer, resets a
populated buffer to the empty state, and running it a second time performs
no deallocation — release is idempotent by construction. -/
theorem drop_owned_idempotent : ∀ {α : Type} (s : OwnedSlice α),
    (s.data.arr = none → drop_owned s = (s, false)) ∧
    (∀ l, s.data.arr = some l → drop_owned s = (OwnedSlice.empty α, true)) ∧
    drop_owned (drop_owned s).1 = ((drop_owned s).1, false) := by
  intro α s
  obtain ⟨⟨arr, len⟩⟩ := s
  cases arr <;>
    simp [drop_owned, OwnedSlice.empty, RawSlice.empty]

/-- Witness for C9 at a concrete populated slice. -/
theorem drop_owned_idempotent_witness :
    drop_owned (OwnedSlice.from_str [104]) = (OwnedSlice.empty UInt8, true) :=
  (drop_owned_idempotent (OwnedSlice.from_str [104])).2.1 [104] rfl

/-! ### C8: owned-buffer round trip -/

/-- C8 counterexample: for a 2^31-byte string, `from_str` stores the
wrapped signed 32-bit length `-2^31`, not the byte length `2^31`, because
the source casts `len as INT32`. -/
theorem from_str_len_counterexample :
    (OwnedSlice.from_str (List.replicate (2 ^ 31) (0 : UInt8))).data.len = -(2 ^ 31) ∧
    ((List.replicate (2 ^ 31) (0 : UInt8)).length : Int) = 2 ^ 31 ∧
    (OwnedSlice.from_str (List.replicate (2 ^ 31) (0 : UInt8))).data.len ≠
      ((List.replicate (2 ^ 31) (0 : UInt8)).length : Int) := by
  have hlen : (List.replicate (2 ^ 31) (0 : UInt8)).length = 2 ^ 31 :=
    List.length_replicate _ _
  have hm : int32_of_nat (2 ^ 31) = -(2 ^ 31) := by
    unfold int32_of_nat
    norm_num
  have ha : (OwnedSlice.from_str (List.replicate (2 ^ 31) (0 : UInt8))).data.len =
      -(2 ^ 31) := by
    show int32_of_nat (List.replicate (2 ^ 31) (0 : UInt8)).length = -(2 ^ 31)
    rw [hlen, hm]
  have hb : ((List.replicate (2 ^ 31) (0 : UInt8)).length : Int) = 2 ^ 31 := by
    rw [hlen]
    norm_num
  refine ⟨ha, hb, ?_⟩
  rw [ha, hb]
  norm_num

/-- C8 amended: for a string of fewer than 2^31 bytes, `from_str` builds a
buffer holding exactly its bytes with length equal to its byte length, so
reading it back recovers the string byte-for-byte; `from_str_opt` maps
`none` to the empty (null, zero-length) buffer and `some s` to
`from_str s`. -/
theorem owned_slice_round_trip : ∀ s : List UInt8, s.length < 2 ^ 31 →
    ((OwnedSlice.from_str s).data.arr = some s ∧
     (OwnedSlice.from_str s).data.len = (s.length : Int) ∧
     read_back (OwnedSlice.from_str s) = s) ∧
    OwnedSlice.from_str_opt none = OwnedSlice.empty UInt8 ∧
    OwnedSlice.from_str_opt (some s) = OwnedSlice.from_str s ∧
    (OwnedSlice.empty UInt8).data.arr = none ∧ (OwnedSlice.empty UInt8).data.len = 0 := by
  intro s hs
  have hl : (OwnedSlice.from_str s).data.len = (s.length : Int) :=
    int32_of_nat_eq_of_lt hs
  refine ⟨⟨rfl, hl, ?_⟩, rfl, rfl, rfl, rfl⟩
  show (match (OwnedSlice.from_str s).data.arr with
        | none => []
        | some l => l.take (OwnedSlice.from_str s).data.len.toNat) = s
  show s.take (OwnedSlice.from_str s).data.len.toNat = s
  rw [hl]
  simp [List.take_length]

/-- Witness for C8 (amended) at a concrete two-byte string. -/
theorem owned_slice_round_trip_witness :
    read_back (OwnedSlice.from_str [104, 105]) = [104, 105] :=
  ((owned_slice_round_trip [104, 105] (by norm_num)).1).2.2

/-! ### C7: wrong-typed optional dependency fields are silently absent -/

/-- C7: in a table-valued dependency entry, a `version`/`git`/`path` field
present with a non-string kind is read exactly as if absent — the field is
`none` and no `PathError` is recorded for it. -/
theorem dep_optional_fields_absorbed : ∀ (name : String) (tgt : Option String)
    (ts : List (String × Entry)),
    classify_dep tgt name (.table ts) = ([Dependency.complex name tgt ts], []) ∧
    (∀ e, tableGet ts "version" = some e → isStr e = false →
       (Dependency.complex name tgt ts).version = none) ∧
    (∀ e, tableGet ts "git" = some e → isStr e = false →
       (Dependency.complex name tgt ts).git = none) ∧
    (∀ e, tableGet ts "path" = some e → isStr e = false →
       (Dependency.complex name tgt ts).path = none) ∧
    (tableGet ts "version" = none → (Dependency.complex name tgt ts).version = none) := by
  intro name tgt ts
  refine ⟨rfl, ?_, ?_, ?_, ?_⟩
  · intro e h hs
    show dep_get_string ts "version" = none
    unfold dep_get_string
    rw [h]
    cases e <;> simp_all [isStr]
  · intro e h hs
    show dep_get_string ts "git" = none
    unfold dep_get_string
    rw [h]
    cases e <;> simp_all [isStr]
  · intro e h hs
    show dep_get_string ts "path" = none
    unfold dep_get_string
    rw [h]
    cases e <;> simp_all [isStr]
  · intro h
    show dep_get_string ts "version" = none
    unfold dep_get_string
    rw [h]

/-- Witness for C7: an integer-valued `version` field is read as absent. -/
theorem dep_optional_fields_absorbed_witness :
    (Dependency.complex "a" none [("version", Entry.int 3)]).version = none :=
  (dep_optional_fields_absorbed "a" none [("version", Entry.int 3)]).2.1
    (Entry.int 3) rfl rfl

/-! ### C3: dependency entry classification -/

/-- C3: inside a root `dependencies` table a string value yields the simple
dependency, a table value the complex one (optional `version`/`git`/`path`
string fields), any other kind one `PathError` at `dependencies.<name>`
expecting "string"; `dependencies = \x7ba = 5\x7d` yields zero dependencies
and exactly that error. -/
theorem dep_classification :
    (∀ name version : String, classify_dep none name (.str version) =
       ([{ name := name, version := some version, git := none, path := none,
           target := none }], [])) ∧
    (∀ (name : String) (t : List (String × Entry)), classify_dep none name (.table t) =
       ([{ name := name, version := dep_get_string t "version",
           git := dep_get_string t "git", path := dep_get_string t "path",
           target := none }], [])) ∧
    (∀ (name : String) (e : Entry), isStr e = false → isTab e = false →
       classify_dep none name e =
         ([], [{ path := "dependencies." ++ name, expected := "string",
                 got := entry_kind e }])) ∧
    get_dependencies [("dependencies", Entry.table [("a", Entry.int 5)])] =
      .error [{ path := "dependencies.a", expected := "string", got := "integer" }] := by
  refine ⟨fun name version => rfl, fun name t => rfl, ?_, rfl⟩
  intro name e hs ht
  cases e <;> simp_all [isStr, isTab, classify_dep, dep_err_path, entry_kind]

/-- Witness for C3 at the non-string, non-table kind `integer`. -/
theorem dep_classification_witness :
    classify_dep none "a" (Entry.int 5) =
      ([], [{ path := "dependencies.a", expected := "string", got := "integer" }]) :=
  dep_classification.2.2.1 "a" (Entry.int 5) rfl rfl

/-! ### C5: array kind is determined by the first element -/

/-- C5: an empty `bin`/`bench`/`test`/`example` array yields no targets and
no errors; an array whose first element is not a table yields exactly one
`PathError` expecting "array of tables" (got "array of <kind>s" from the
first element) and none of its elements yields a target; concretely
`bin = [1, 2]` yields zero targets and that single error. -/
theorem array_first_element_rule :
    (∀ (src : String) (ctor : OutputTarget), get_array src (some (.arr [])) ctor = ([], [])) ∧
    (∀ (src : String) (ctor : OutputTarget) (e : Entry) (es : List Entry),
       isTab e = false →
       get_array src (some (.arr (e :: es))) ctor =
         ([], [{ path := src, expected := "array of tables",
                 got := (array_kind (e :: es)).getD "" }])) ∧
    get_output_targets [("bin", Entry.arr [Entry.int 1, Entry.int 2])] =
      .error [{ path := "bin", expected := "array of tables",
                got := "array of integers" }] := by
  refine ⟨fun src ctor => rfl, ?_, rfl⟩
  intro src ctor e es ht
  cases e <;> first
    | rfl
    | simp [isTab] at ht

/-- Witness for C5 with an integer first element. -/
theorem array_first_element_rule_witness :
    get_array "bin" (some (.arr [Entry.int 1, Entry.int 2])) OutputTarget.bin =
      ([], [{ path := "bin", expected := "array of tables",
              got := "array of integers" }]) :=
  array_first_element_rule.2.1 "bin" OutputTarget.bin (Entry.int 1) [Entry.int 2] rfl

/-! ### C10: get_string_array validates only the first element -/

/-- C10: once `lookup` yields an array, a string first element admits the
collection to run over all elements, where any later non-string element
drives `string_value` into the source's `unreachable!()` (modelled by
`none`); a non-string first element instead returns
`Conflict (path length) (kind of first element)`. -/
theorem get_string_array_first_only : ∀ (doc : Document) (key : String)
    (rest : List String) (array : List Entry),
    Manifest.lookup doc key rest = .ok (.arr array) →
    (∀ (s : String) (es : List Entry), array = .str s :: es →
       (∃ e ∈ es, isStr e = false) → get_string_array doc key rest = none) ∧
    (∀ (e : Entry) (es : List Entry), array = e :: es → isStr e = false →
       get_string_array doc key rest =
         some (.error (.Conflict (rest.length + 1) (entry_kind e)))) := by
  intro doc key rest array hlk
  constructor
  · rintro s es rfl ⟨e, he, hse⟩
    have hnone : map_string_values (Entry.str s :: es) = none := by
      have : map_string_values es = none := map_string_values_eq_none he hse
      simp [map_string_values, string_value, this]
    simp [get_string_array, hlk, hnone]
  · rintro e es rfl hse
    cases e <;> simp_all [get_string_array, hlk, isStr]

/-! ### C2: all-or-nothing extraction over a full traversal -/

theorem gate_spec {α β : Type} (p : List α × List β) :
    (p.2 = [] ↔ (if p.2.length > 0 then (.error p.2 : Except (List β) (List α))
                 else .ok p.1) = .ok p.1) ∧
    (p.2 ≠ [] ↔ (if p.2.length > 0 then (.error p.2 : Except (List β) (List α))
                 else .ok p.1) = .error p.2) := by
  obtain ⟨a, b⟩ := p
  cases b <;> simp

theorem get_inner_table_flatten (tgt : Option String) (ts : List (String × Entry)) :
    get_inner_table tgt ts =
      ((ts.map fun p => (classify_dep tgt p.1 p.2).1).flatten,
       (ts.map fun p => (classify_dep tgt p.1 p.2).2).flatten) := by
  induction ts with
  | nil => rfl
  | cons p rest ih =>
    obtain ⟨name, e⟩ := p
    simp [get_inner_table, ih]

theorem get_array_items_flatten (src : String) (ctor : OutputTarget) (es : List Entry) :
    get_array_items src ctor es =
      ((es.map fun e => (get_table src (some e) ctor).1).flatten,
       (es.map fun e => (get_table src (some e) ctor).2).flatten) := by
  induction es with
  | nil => rfl
  | cons e rest ih => simp [get_array_items, ih]

/-- C2: both extractors finish a full traversal and then gate the result:
they return exactly the accumulated error list iff at least one violation
was recorded (discarding all extracted results), and exactly the complete
result list iff none was; the per-entry contributions concatenate
independently, so one entry's violation never stops its siblings from
being examined. -/
theorem extractors_all_or_nothing : ∀ doc : Document,
    ((dep_scan doc).2 = [] ↔ get_dependencies doc = .ok (dep_scan doc).1) ∧
    ((dep_scan doc).2 ≠ [] ↔ get_dependencies doc = .error (dep_scan doc).2) ∧
    ((target_scan doc).2 = [] ↔ get_output_targets doc = .ok (target_scan doc).1) ∧
    ((target_scan doc).2 ≠ [] ↔ get_output_targets doc = .error (target_scan doc).2) ∧
    (∀ (tgt : Option String) (ts : List (String × Entry)),
       get_inner tgt (.table ts) =
         ((ts.map fun p => (classify_dep tgt p.1 p.2).1).flatten,
          (ts.map fun p => (classify_dep tgt p.1 p.2).2).flatten)) ∧
    (∀ (src : String) (ctor : OutputTarget) (es : List Entry),
       get_array_items src ctor es =
         ((es.map fun e => (get_table src (some e) ctor).1).flatten,
          (es.map fun e => (get_table src (some e) ctor).2).flatten)) := by
  intro doc
  exact ⟨(gate_spec (dep_scan doc)).1, (gate_spec (dep_scan doc)).2,
         (gate_spec (target_scan doc)).1, (gate_spec (target_scan doc)).2,
         fun tgt ts => get_inner_table_flatten tgt ts,
         fun src ctor es => get_array_items_flatten src ctor es⟩

/-- Witness for C2 on a concrete clean document. -/
theorem extractors_all_or_nothing_witness :
    get_dependencies [("dependencies", Entry.table [("a", Entry.str "1.0")])] =
      .ok [Dependency.simple "a" none "1.0"] :=
  ((extractors_all_or_nothing
      [("dependencies", Entry.table [("a", Entry.str "1.0")])]).1).mp rfl

/-! ### C4: kind-specific defaults of output targets -/

theorem ot_get_string_ok : ∀ (o : Option Entry) (p : String) (v : Option String),
    ot_get_string o p = .ok v → v = opt_str o := by
  intro o p v h
  cases o with
  | none =>
    injection h with h2
    exact h2.symm
  | some e =>
    cases e
    case str s =>
      injection h with h2
      exact h2.symm
    all_goals exact Except.noConfusion h

theorem ot_get_bool_ok : ∀ (o : Option Entry) (p : String) (v : Option Bool),
    ot_get_bool o p = .ok v → v = opt_bool o := by
  intro o p v h
  cases o with
  | none =>
    injection h with h2
    exact h2.symm
  | some e =>
    cases e
    case bool b =>
      injection h with h2
      exact h2.symm
    all_goals exact Except.noConfusion h

theorem get_target_ok_shape : ∀ (src : String) (ts : List (String × Entry))
    (tgt t' : OutputTarget), get_target src ts tgt = .ok t' →
    t' = { kind := tgt.kind,
           name := opt_str (tableGet ts "name"), path := opt_str (tableGet ts "path"),
           test := (opt_bool (tableGet ts "test")).getD tgt.test,
           doctest := (opt_bool (tableGet ts "doctest")).getD tgt.doctest,
           bench := (opt_bool (tableGet ts "bench")).getD tgt.bench,
           doc := (opt_bool (tableGet ts "doc")).getD tgt.doc,
           plugin := (opt_bool (tableGet ts "plugin")).getD tgt.plugin,
           harness := (opt_bool (tableGet ts "harness")).getD tgt.harness } := by
  intro src ts tgt t' h
  unfold get_target at h
  cases h1 : ot_get_string (tableGet ts "name") (src ++ ".name") with
  | error e => simp only [h1] at h; exact Except.noConfusion h
  | ok vname =>
  simp only [h1] at h
  cases h2 : ot_get_string (tableGet ts "path") (src ++ ".path") with
  | error e => simp only [h2] at h; exact Except.noConfusion h
  | ok vpath =>
  simp only [h2] at h
  cases h3 : ot_get_bool (tableGet ts "test") (src ++ ".test") with
  | error e => simp only [h3] at h; exact Except.noConfusion h
  | ok vtest =>
  simp only [h3] at h
  cases h4 : ot_get_bool (tableGet ts "doctest") (src ++ ".doctest") with
  | error e => simp only [h4] at h; exact Except.noConfusion h
  | ok vdoctest =>
  simp only [h4] at h
  cases h5 : ot_get_bool (tableGet ts "bench") (src ++ ".bench") with
  | error e => simp only [h5] at h; exact Except.noConfusion h
  | ok vbench =>
  simp only [h5] at h
  cases h6 : ot_get_bool (tableGet ts "doc") (src ++ ".doc") with
  | error e => simp only [h6] at h; exact Except.noConfusion h
  | ok vdoc =>
  simp only [h6] at h
  cases h7 : ot_get_bool (tableGet ts "plugin") (src ++ ".plugin") with
  | error e => simp only [h7] at h; exact Except.noConfusion h
  | ok vplugin =>
  simp only [h7] at h
  cases h8 : ot_get_bool (tableGet ts "harness") (src ++ ".harness") with
  | error e => simp only [h8] at h; exact Except.noConfusion h
  | ok vharness =>
  simp only [h8] at h
  injection h with h9
  subst h9
  rw [ot_get_string_ok _ _ _ h1, ot_get_string_ok _ _ _ h2, ot_get_bool_ok _ _ _ h3,
      ot_get_bool_ok _ _ _ h4, ot_get_bool_ok _ _ _ h5, ot_get_bool_ok _ _ _ h6,
      ot_get_bool_ok _ _ _ h7, ot_get_bool_ok _ _ _ h8]

/-- C4: the five target constructors carry exactly the documented
kind-specific flag defaults, `get_target` keeps the given default for
every flag absent from the entry table, and `bin = [\x7bname="x"\x7d]`
yields the single bin target with untouched defaults. -/
theorem target_defaults :
    OutputTarget.lib = { kind := "lib", name := none, path := none, test := true,
                         doctest := true, bench := true, doc := true, plugin := false,
                         harness := true } ∧
    OutputTarget.bin = { kind := "bin", name := none, path := none, test := true,
                         doctest := false, bench := true, doc := true, plugin := false,
                         harness := true } ∧
    OutputTarget.bench_t = { kind := "bench", name := none, path := none, test := false,
                             doctest := false, bench := true, doc := false,
                             plugin := false, harness := true } ∧
    OutputTarget.test_t = { kind := "test", name := none, path := none, test := true,
                            doctest := false, bench := false, doc := false,
                            plugin := false, harness := true } ∧
    OutputTarget.example_t = { kind := "example", name := none, path := none,
                               test := true, doctest := false, bench := false,
                               doc := false, plugin := false, harness := true } ∧
    (∀ (src : String) (ts : List (String × Entry)) (tgt t' : OutputTarget),
       get_target src ts tgt = .ok t' →
       (tableGet ts "test" = none → t'.test = tgt.test) ∧
       (tableGet ts "doctest" = none → t'.doctest = tgt.doctest) ∧
       (tableGet ts "bench" = none → t'.bench = tgt.bench) ∧
       (tableGet ts "doc" = none → t'.doc = tgt.doc) ∧
       (tableGet ts "plugin" = none → t'.plugin = tgt.plugin) ∧
       (tableGet ts "harness" = none → t'.harness = tgt.harness)) ∧
    get_output_targets [("bin", Entry.arr [Entry.table [("name", Entry.str "x")]])] =
      .ok [{ kind := "bin", name := some "x", path := none, test := true, doctest := false,
             bench := true, doc := true, plugin := false, harness := true }] := by
  refine ⟨rfl, rfl, rfl, rfl, rfl, ?_, rfl⟩
  intro src ts tgt t' h
  have hs := get_target_ok_shape src ts tgt t' h
  subst hs
  refine ⟨?_, ?_, ?_, ?_, ?_, ?_⟩ <;> intro hn <;> simp [hn, opt_bool]

/-- Witness for C4: the absent `test` flag of a concrete bin entry keeps
the bin default. -/
theorem target_defaults_witness :
    ({ kind := "bin", name := some "x", path := none, test := true, doctest := false,
       bench := true, doc := true, plugin := false, harness := true } : OutputTarget).test =
      OutputTarget.bin.test :=
  (target_defaults.2.2.2.2.2.1 "bin" [("name", Entry.str "x")] OutputTarget.bin
    { kind := "bin", name := some "x", path := none, test := true, doctest := false,
      bench := true, doc := true, plugin := false, harness := true } rfl).1 rfl

/-! ### C6: wrong-typed boolean flags abort one entry with one error -/

/-- C6 counterexample: an entry with two wrong-typed boolean flags
(`test` and `doctest`) produces only the single `bin.test` error — there
is no per-field `bin.doctest` error, contrary to the claim's
"one such error per violating field". -/
theorem target_bool_error_counterexample :
    get_output_targets [("bin", Entry.arr
        [Entry.table [("test", Entry.int 1), ("doctest", Entry.int 2)]])] =
      .error [{ path := "bin.test", expected := "boolean", got := "integer" }] ∧
    ({ path := "bin.doctest", expected := "boolean", got := "integer" } : PathError) ∉
      [({ path := "bin.test", expected := "boolean", got := "integer" } : PathError)] :=
  ⟨rfl, by decide⟩

theorem ot_get_string_of_str_ok : ∀ (o : Option Entry) (p : String), str_ok o = true →
    ot_get_string o p = .ok (opt_str o) := by
  intro o p h
  cases o with
  | none => rfl
  | some e => cases e <;> simp_all [str_ok, ot_get_string, opt_str]

theorem ot_get_bool_of_bool_ok : ∀ (o : Option Entry) (p : String), bool_ok o = true →
    ot_get_bool o p = .ok (opt_bool o) := by
  intro o p h
  cases o with
  | none => rfl
  | some e => cases e <;> simp_all [bool_ok, ot_get_bool, opt_bool]

theorem ot_get_bool_of_bad : ∀ (e : Entry) (p : String), bool_ok (some e) = false →
    ot_get_bool (some e) p =
      .error { path := p, expected := "boolean", got := entry_kind e } := by
  intro e p h
  cases e <;> simp_all [bool_ok, ot_get_bool]

theorem append_dot (src f g : String) (h : "." ++ f = g) :
    src ++ "." ++ f = src ++ g := by
  rw [String.append_assoc, h]

theorem bool_ok_not_false {o : Option Entry} (h : ¬ bool_ok o = false) :
    bool_ok o = true := by
  revert h
  cases bool_ok o <;> simp

/-- Witness for C10: a panic on a later non-string element, and a conflict
on a non-string first element. -/
theorem get_string_array_first_only_witness :
    get_string_array [("a", Entry.arr [Entry.str "x", Entry.int 1])] "a" [] = none ∧
    get_string_array [("a", Entry.arr [Entry.int 1])] "a" [] =
      some (.error (.Conflict 1 "integer")) :=
  ⟨(get_string_array_first_only [("a", Entry.arr [Entry.str "x", Entry.int 1])] "a" []
      [Entry.str "x", Entry.int 1] rfl).1 "x" [Entry.int 1] rfl
      ⟨Entry.int 1, List.Mem.head _, rfl⟩,
   (get_string_array_first_only [("a", Entry.arr [Entry.int 1])] "a" []
      [Entry.int 1] rfl).2 (Entry.int 1) [] rfl rfl⟩

/-- C6 amended: an entry table whose boolean flags include wrong-typed
fields yields exactly ONE `PathError`, for the first violating field in
the source's checking order (after `name` and `path`), with path
`<src>.<field>`, expected "boolean" and the actual kind; that entry is
excluded, while sibling entries of the same array are still processed and
their contributions accumulate. -/
theorem target_bool_error_first_only :
    (∀ (src : String) (ts : List (String × Entry)) (tgt : OutputTarget)
       (f : String) (e : Entry),
       str_ok (tableGet ts "name") = true → str_ok (tableGet ts "path") = true →
       first_bad_bool ts = some f → tableGet ts f = some e →
       get_target src ts tgt =
           .error { path := src ++ "." ++ f, expected := "boolean",
                    got := entry_kind e } ∧
       get_table src (some (.table ts)) tgt =
           ([], [{ path := src ++ "." ++ f, expected := "boolean",
                   got := entry_kind e }])) ∧
    (∀ (src : String) (ctor : OutputTarget) (es : List Entry),
       get_array_items src ctor es =
         ((es.map fun e => (get_table src (some e) ctor).1).flatten,
          (es.map fun e => (get_table src (some e) ctor).2).flatten)) ∧
    get_array "bin" (some (.arr
        [Entry.table [("test", Entry.int 1), ("doctest", Entry.int 2)],
         Entry.table [("name", Entry.str "y")]])) OutputTarget.bin =
      ([{ kind := "bin", name := some "y", path := none, test := true, doctest := false,
          bench := true, doc := true, plugin := false, harness := true }],
       [{ path := "bin.test", expected := "boolean", got := "integer" }]) := by
  refine ⟨?_, fun src ctor es => get_array_items_flatten src ctor es, rfl⟩
  intro src ts tgt f e hname hpath hf he
  have hn := ot_get_string_of_str_ok (tableGet ts "name") (src ++ ".name") hname
  have hp := ot_get_string_of_str_ok (tableGet ts "path") (src ++ ".path") hpath
  unfold first_bad_bool at hf
  by_cases c1 : bool_ok (tableGet ts "test") = false
  · rw [if_pos c1] at hf
    injection hf with hf
    subst hf
    rw [append_dot src "test" ".test" (by decide)]
    have hb : ot_get_bool (tableGet ts "test") (src ++ ".test") =
        .error { path := src ++ ".test", expected := "boolean", got := entry_kind e } := by
      rw [he]
      exact ot_get_bool_of_bad e _ (by rwa [he] at c1)
    have hgt : get_target src ts tgt =
        .error { path := src ++ ".test", expected := "boolean", got := entry_kind e } := by
      unfold get_target
      simp only [hn, hp, hb]
    exact ⟨hgt, by simp [get_table, hgt]⟩
  · have k1 := ot_get_bool_of_bool_ok (tableGet ts "test") (src ++ ".test")
      (bool_ok_not_false c1)
    rw [if_neg c1] at hf
    by_cases c2 : bool_ok (tableGet ts "doctest") = false
    · rw [if_pos c2] at hf
      injection hf with hf
      subst hf
      rw [append_dot src "doctest" ".doctest" (by decide)]
      have hb : ot_get_bool (tableGet ts "doctest") (src ++ ".doctest") =
          .error { path := src ++ ".doctest", expected := "boolean",
                   got := entry_kind e } := by
        rw [he]
        exact ot_get_bool_of_bad e _ (by rwa [he] at c2)
      have hgt : get_target src ts tgt =
          .error { path := src ++ ".doctest", expected := "boolean",
                   got := entry_kind e } := by
        unfold get_target
        simp only [hn, hp, k1, hb]
      exact ⟨hgt, by simp [get_table, hgt]⟩
    · have k2 := ot_get_bool_of_bool_ok (tableGet ts "doctest") (src ++ ".doctest")
        (bool_ok_not_false c2)
      rw [if_neg c2] at hf
      by_cases c3 : bool_ok (tableGet ts "bench") = false
      · rw [if_pos c3] at hf
        injection hf with hf
        subst hf
        rw [append_dot src "bench" ".bench" (by decide)]
        have hb : ot_get_bool (tableGet ts "bench") (src ++ ".bench") =
            .error { path := src ++ ".bench", expected := "boolean",
                     got := entry_kind e } := by
          rw [he]
          exact ot_get_bool_of_bad e _ (by rwa [he] at c3)
        have hgt : get_target src ts tgt =
            .error { path := src ++ ".bench", expected := "boolean",
                     got := entry_kind e } := by
          unfold get_target
          simp only [hn, hp, k1, k2, hb]
        exact ⟨hgt, by simp [get_table, hgt]⟩
      · have k3 := ot_get_bool_of_bool_ok (tableGet ts "bench") (src ++ ".bench")
          (bool_ok_not_false c3)
        rw [if_neg c3] at hf
        by_cases c4 : bool_ok (tableGet ts "doc") = false
        · rw [if_pos c4] at hf
          injection hf with hf
          subst hf
          rw [append_dot src "doc" ".doc" (by decide)]
          have hb : ot_get_bool (tableGet ts "doc") (src ++ ".doc") =
              .error { path := src ++ ".doc", expected := "boolean",
                       got := entry_kind e } := by
            rw [he]
            exact ot_get_bool_of_bad e _ (by rwa [he] at c4)
          have hgt : get_target src ts tgt =
              .error { path := src ++ ".doc", expected := "boolean",
                       got := entry_kind e } := by
            unfold get_target
            simp only [hn, hp, k1, k2, k3, hb]
          exact ⟨hgt, by simp [get_table, hgt]⟩
        · have k4 := ot_get_bool_of_bool_ok (tableGet ts "doc") (src ++ ".doc")
            (bool_ok_not_false c4)
          rw [if_neg c4] at hf
          by_cases c5 : bool_ok (tableGet ts "plugin") = false
          · rw [if_pos c5] at hf
            injection hf with hf
            subst hf
            rw [append_dot src "plugin" ".plugin" (by decide)]
            have hb : ot_get_bool (tableGet ts "plugin") (src ++ ".plugin") =
                .error { path := src ++ ".plugin", expected := "boolean",
                         got := entry_kind e } := by
              rw [he]
              exact ot_get_bool_of_bad e _ (by rwa [he] at c5)
            have hgt : get_target src ts tgt =
                .error { path := src ++ ".plugin", expected := "boolean",
                         got := entry_kind e } := by
              unfold get_target
              simp only [hn, hp, k1, k2, k3, k4, hb]
            exact ⟨hgt, by simp [get_table, hgt]⟩
          · have k5 := ot_get_bool_of_bool_ok (tableGet ts "plugin") (src ++ ".plugin")
              (bool_ok_not_false c5)
            rw [if_neg c5] at hf
            by_cases c6 : bool_ok (tableGet ts "harness") = false
            · rw [if_pos c6] at hf
              injection hf with hf
              subst hf
              rw [append_dot src "harness" ".harness" (by decide)]
              have hb : ot_get_bool (tableGet ts "harness") (src ++ ".harness") =
                  .error { path := src ++ ".harness", expected := "boolean",
                           got := entry_kind e } := by
                rw [he]
                exact ot_get_bool_of_bad e _ (by rwa [he] at c6)
              have hgt : get_target src ts tgt =
                  .error { path := src ++ ".harness", expected := "boolean",
                           got := entry_kind e } := by
                unfold get_target
                simp only [hn, hp, k1, k2, k3, k4, k5, hb]
              exact ⟨hgt, by simp [get_table, hgt]⟩
            · rw [if_neg c6] at hf
              exact Option.noConfusion hf

/-! ### C1: characterization of Manifest::lookup -/

/-- C1 counterexample: the claim's depth accounting fails on the code.
With `doc = \x7ba = \x7b\x7d\x7d` and path `a.b`, the longest resolvable
prefix is `[a]` (length 1) and the table it reaches lacks `b`, yet lookup
returns `Vacant 0`, not `Vacant 1`; with `doc = \x7ba = 1\x7d` and path
`a.b`, the non-table node sits after one resolved segment, yet lookup
returns `Conflict 0`, not `Conflict 1`. -/
theorem lookup_depth_counterexample :
    ¬ c1_vacant_claim [("a", Entry.table [])] "a" ["b"] ∧
    ¬ c1_conflict_claim [("a", Entry.int 1)] "a" ["b"] ∧
    Manifest.lookup [("a", Entry.table [])] "a" ["b"] = .error (.Vacant 0) ∧
    Manifest.lookup [("a", Entry.int 1)] "a" ["b"] = .error (.Conflict 0 "integer") := by
  refine ⟨?_, ?_, rfl, rfl⟩
  · intro h
    have hlrp : isLrpLen [("a", Entry.table [])] ["a", "b"] 1 := by
      refine ⟨by decide, rfl, ?_⟩
      intro j hj hsj
      by_contra hgt
      push_neg at hgt
      simp only [List.length_cons, List.length_nil] at hj
      have hj2 : j = 2 := by omega
      subst hj2
      exact absurd hsj (by decide)
    have h1 := (h 1).mpr ⟨hlrp, [], rfl, rfl⟩
    have h2 : (Except.error (QueryError.Vacant 0) : Except QueryError Entry) =
        .error (.Vacant 1) := h1
    injection h2 with h3
    injection h3 with h4
    exact absurd h4 (by omega)
  · intro h
    have h1 := (h 1 "integer").mpr ⟨Entry.int 1, rfl, rfl, by decide, rfl⟩
    have h2 : (Except.error (QueryError.Conflict 0 "integer") : Except QueryError Entry) =
        .error (.Conflict 1 "integer") := h1
    injection h2 with h3
    injection h3 with h4 h5
    exact absurd h4 (by omega)

/-- C1 amended: for every document and non-empty path, lookup succeeds with
the final node iff the whole path resolves; it returns `Vacant d` iff the
longest resolvable prefix has some length `L`, the table reached after that
prefix lacks the next key, keys remain, and `d = L - 1` (truncated, so the
reported depth is one less than the number of resolved segments except at
the root); it returns `Conflict d kind` iff the node after the longest
resolvable prefix of length `L` is a non-table node of kind `kind` with
keys remaining, and `d = L - 1`. -/
theorem lookup_characterization : ∀ (doc : Document) (key : String) (rest : List String),
    (∀ e, Manifest.lookup doc key rest = .ok e ↔ resolve doc (key :: rest) = some e) ∧
    (∀ d, Manifest.lookup doc key rest = .error (.Vacant d) ↔
       ∃ L t, isLrpLen doc (key :: rest) L ∧
         resolve doc ((key :: rest).take L) = some (.table t) ∧
         L < (key :: rest).length ∧
         tableGet t ((key :: rest).getD L "") = none ∧ d = L - 1) ∧
    (∀ d kind, Manifest.lookup doc key rest = .error (.Conflict d kind) ↔
       ∃ L e₂, isLrpLen doc (key :: rest) L ∧
         resolve doc ((key :: rest).take L) = some e₂ ∧ isTab e₂ = false ∧
         L < (key :: rest).length ∧ kind = entry_kind e₂ ∧ d = L - 1) := by
  intro doc key rest
  refine ⟨fun e => lookup_ok_iff doc key rest e, fun d => ?_, fun d kind => ?_⟩
  · rw [lookup_vacant_iff]
    constructor
    · rintro ⟨L, t, hres, hL, hmiss, hd⟩
      exact ⟨L, t,
        lrp_max_of_fail doc _ L (le_of_lt hL) (by simp [hres])
          (fail_after_stuck_table doc _ L t hres hL hmiss),
        hres, hL, hmiss, hd⟩
    · rintro ⟨L, t, -, hres, hL, hmiss, hd⟩
      exact ⟨L, t, hres, hL, hmiss, hd⟩
  · rw [lookup_conflict_iff]
    constructor
    · rintro ⟨L, e₂, hres, htab, hL, hk, hd⟩
      exact ⟨L, e₂,
        lrp_max_of_fail doc _ L (le_of_lt hL) (by simp [hres])
          (fail_after_stuck_nontable doc _ L e₂ hres htab hL),
        hres, htab, hL, hk, hd⟩
    · rintro ⟨L, e₂, -, hres, htab, hL, hk, hd⟩
      exact ⟨L, e₂, hres, htab, hL, hk, hd⟩

/-- Witness for C1 (amended): success returns the final node on a concrete
fully-resolving path. -/
theorem lookup_characterization_witness :
    Manifest.lookup [("a", Entry.table [("b", Entry.int 7)])] "a" ["b"] =
      .ok (Entry.int 7) :=
  ((lookup_characterization [("a", Entry.table [("b", Entry.int 7)])] "a" ["b"]).1
    (Entry.int 7)).mpr rfl

/-- Witness for C6 (amended) at the concrete two-bad-flag entry. -/
theorem target_bool_error_first_only_witness :
    get_table "bin" (some (.table [("test", Entry.int 1), ("doctest", Entry.int 2)]))
        OutputTarget.bin =
      ([], [{ path := "bin" ++ "." ++ "test", expected := "boolean",
              got := "integer" }]) :=
  (target_bool_error_first_only.1 "bin"
    [("test", Entry.int 1), ("doctest", Entry.int 2)] OutputTarget.bin
    "test" (Entry.int 1) rfl rfl rfl rfl).2

end VistToml
